import Mathlib

/-!
Verification development for the NEO explorer repository
(`models.py`, `extract.py`; the indexer, `helpers.py` and the
serialization layer are modelled from the design spec where noted).

Python floats are embedded as an explicit not-a-number sentinel plus
exact rationals; machine `float` rounding plays no role in any of the
properties below, which only distinguish "unknown" (NaN) from real
measurements.
-/

namespace NeoProject

/-- Embedding of the Python float values this program manipulates:
the not-a-number sentinel produced by `float("nan")`, or a finite
numeric value (modelled exactly as a rational). -/
inductive PyFloat where
  | nan : PyFloat
  | num (q : ℚ) : PyFloat
deriving DecidableEq

/-- Python `==` on floats: `nan` compares unequal to everything,
itself included. -/
def pyEq : PyFloat → PyFloat → Bool
  | .num a, .num b => a = b
  | _, _ => false

/-- Numeric value of a decimal digit character. -/
def digitVal (c : Char) : ℕ := c.toNat - 48

/-- Test for a decimal digit character. -/
def isDigitB (c : Char) : Bool := 48 ≤ c.toNat && c.toNat ≤ 57

/-- Decimal digit character of a value below ten. -/
def digitCh (n : ℕ) : Char := Char.ofNat (48 + n)

/-- Value of a big-endian list of decimal digit characters. -/
def digitsVal (cs : List Char) : ℕ := cs.foldl (fun a c => 10 * a + digitVal c) 0

/-- All characters of the list are decimal digits. -/
def allDigits (cs : List Char) : Bool := cs.all isDigitB

/-- Embedding of Python `float(s)` on a finite decimal literal: optional
sign, then digits with an optional fractional part (`"12"`, `"12."`,
`".5"`, `"16.84"`).  Returns `none` exactly where `float` raises
`ValueError` — on the empty string and on non-numeric garbage.  The
special tokens the program actually uses are handled by `pyFloat?`. -/
def parseDecimal? (s : String) : Option ℚ :=
  let body : List Char :=
    match s.data with
    | '-' :: rest => rest
    | '+' :: rest => rest
    | cs => cs
  let sgn : ℚ := match s.data with
    | '-' :: _ => -1
    | _ => 1
  match body.span (fun c => c ≠ '.') with
  | (ip, []) =>
      if ip ≠ [] && allDigits ip then some (sgn * (digitsVal ip : ℚ)) else none
  | (ip, _ :: fp) =>
      if (ip ≠ [] || fp ≠ []) && allDigits ip && allDigits fp then
        some (sgn * ((digitsVal ip : ℚ) + (digitsVal fp : ℚ) / (10 : ℚ) ^ fp.length))
      else none

/-- Embedding of Python `float` applied to the strings this program
feeds it: the `"nan"` sentinel yields the not-a-number value, a finite
decimal literal yields its value, anything else raises (`none`). -/
def pyFloat? (s : String) : Option PyFloat :=
  if s = "nan" then some .nan else (parseDecimal? s).map .num

/-- Structured calendar date-time (UTC), minute precision: the input
format carries no seconds, so none are stored. -/
structure DateTime where
  year : ℕ
  month : ℕ
  day : ℕ
  hour : ℕ
  minute : ℕ
deriving DecidableEq

/-- Table of the three-letter abbreviated month names, as the external
NASA format writes them, with their month numbers. -/
def monthAbbrevTable : List (List Char × ℕ) :=
  [(['J', 'a', 'n'], 1), (['F', 'e', 'b'], 2), (['M', 'a', 'r'], 3), (['A', 'p', 'r'], 4),
   (['M', 'a', 'y'], 5), (['J', 'u', 'n'], 6), (['J', 'u', 'l'], 7), (['A', 'u', 'g'], 8),
   (['S', 'e', 'p'], 9), (['O', 'c', 't'], 10), (['N', 'o', 'v'], 11), (['D', 'e', 'c'], 12)]

/-- Month number of a three-letter abbreviated month name. -/
def monthOfAbbrev? (cs : List Char) : Option ℕ :=
  (monthAbbrevTable.find? (fun p => p.1 == cs)).map (fun p => p.2)

/-- Modelled from the spec: the numeric-month half of the external
date-time format, `YYYY-MM-DD HH:MM` — the display form the spec's
round-trip example feeds back to the parser. -/
def parseNumericCd (s : String) : Option DateTime :=
  match s.data with
  | [y1, y2, y3, y4, '-', m1, m2, '-', d1, d2, ' ', h1, h2, ':', n1, n2] =>
      if isDigitB y1 && isDigitB y2 && isDigitB y3 && isDigitB y4 &&
         isDigitB m1 && isDigitB m2 && isDigitB d1 && isDigitB d2 &&
         isDigitB h1 && isDigitB h2 && isDigitB n1 && isDigitB n2 then
        let year := 1000 * digitVal y1 + 100 * digitVal y2 + 10 * digitVal y3 + digitVal y4
        let month := 10 * digitVal m1 + digitVal m2
        let day := 10 * digitVal d1 + digitVal d2
        let hour := 10 * digitVal h1 + digitVal h2
        let minute := 10 * digitVal n1 + digitVal n2
        if 1 ≤ month && month ≤ 12 && 1 ≤ day && day ≤ 31 && hour ≤ 23 && minute ≤ 59 then
          some ⟨year, month, day, hour, minute⟩
        else none
      else none
  | _ => none

/-- Modelled from the spec: the abbreviated-month half of the external
date-time format, `YYYY-Mon-DD HH:MM` (spec section 3 "month … possibly
abbreviated"; the section 8 end-to-end example uses
`1900-Jan-01 12:00`). -/
def parseAbbrevCd (s : String) : Option DateTime :=
  match s.data with
  | [y1, y2, y3, y4, '-', a, b, c, '-', d1, d2, ' ', h1, h2, ':', n1, n2] =>
      if isDigitB y1 && isDigitB y2 && isDigitB y3 && isDigitB y4 &&
         isDigitB d1 && isDigitB d2 &&
         isDigitB h1 && isDigitB h2 && isDigitB n1 && isDigitB n2 then
        match monthOfAbbrev? [a, b, c] with
        | some month =>
          let year := 1000 * digitVal y1 + 100 * digitVal y2 + 10 * digitVal y3 + digitVal y4
          let day := 10 * digitVal d1 + digitVal d2
          let hour := 10 * digitVal h1 + digitVal h2
          let minute := 10 * digitVal n1 + digitVal n2
          if 1 ≤ day && day ≤ 31 && hour ≤ 23 && minute ≤ 59 then
            some ⟨year, month, day, hour, minute⟩
          else none
        | none => none
      else none
  | _ => none

/-- Modelled from the spec: `helpers.cd_to_datetime` (helpers.py is not
under src/).  Parses the fixed external date-time format — calendar
date then hour:minute, no seconds, with the month written numerically
or abbreviated; the two forms have different lengths, so trying the
numeric shape first loses nothing.  Fails on anything else. -/
def cd_to_datetime (s : String) : Option DateTime :=
  match parseNumericCd s with
  | some t => some t
  | none => parseAbbrevCd s

/-- Two-digit zero-padded rendering of a value below 100. -/
def twoDigits (n : ℕ) : List Char := [digitCh (n / 10 % 10), digitCh (n % 10)]

/-- Four-digit zero-padded rendering of a value below 10000. -/
def fourDigits (n : ℕ) : List Char :=
  [digitCh (n / 1000 % 10), digitCh (n / 100 % 10), digitCh (n / 10 % 10), digitCh (n % 10)]

/-- Modelled from the spec: `helpers.datetime_to_str` (helpers.py is not
under src/).  Formats the date-time back to the fixed display format
`YYYY-MM-DD HH:MM`, dropping seconds. -/
def datetime_to_str (t : DateTime) : String :=
  String.mk (fourDigits t.year ++ '-' :: twoDigits t.month ++ '-' :: twoDigits t.day ++
    ' ' :: twoDigits t.hour ++ ':' :: twoDigits t.minute)

/-- Single-quote character, used by Python `repr` of strings. -/
def sq : String := String.mk [Char.ofNat 39]

/-- Python `repr` of a plain string without special characters. -/
def pyRepr (s : String) : String := sq ++ s ++ sq

/-- Python `repr` of an optional string: `None` or the quoted string. -/
def pyReprOpt : Option String → String
  | none => "None"
  | some s => pyRepr s

/-- Round a rational to the nearest integer, ties to even — the rounding
Python string formatting applies. -/
def roundHalfEven (q : ℚ) : ℤ :=
  if q - ⌊q⌋ < 1 / 2 then ⌊q⌋
  else if 1 / 2 < q - ⌊q⌋ then ⌊q⌋ + 1
  else if ⌊q⌋ % 2 = 0 then ⌊q⌋ else ⌊q⌋ + 1

/-- Left-pad a digit list with zeros to the given width. -/
def padLeft (k : ℕ) (cs : List Char) : List Char := List.replicate (k - cs.length) '0' ++ cs

/-- Embedding of Python fixed-point float formatting `:.{prec}f`; the
not-a-number sentinel prints as `nan`. -/
def fixedStr (prec : ℕ) : PyFloat → String
  | .nan => "nan"
  | .num q =>
    let m : ℤ := roundHalfEven (q * (10 : ℚ) ^ prec)
    (if m < 0 then "-" else "") ++ String.mk (Nat.toDigits 10 (m.natAbs / 10 ^ prec)) ++
      "." ++ String.mk (padLeft prec (Nat.toDigits 10 (m.natAbs % 10 ^ prec)))

/-- Embedding of `NearEarthObject` (src/models.py): designation, optional
name, diameter, hazard flag, plus the collection of linked approaches.
Approaches are referenced arena-style by their index in the database's
approach list, so reference identity is index equality. -/
structure NearEarthObject where
  designation : String
  name : Option String
  diameter : PyFloat
  hazardous : Bool
  approaches : List ℕ
deriving DecidableEq

/-- Embedding of `NearEarthObject.__init__` (src/models.py).  The Python
defaults are `name=None`, `diameter="nan"`; `float(diameter)` raises on
an unparseable string (result `none`), `str(name) if name else None`
turns an empty or absent name into `None`, and the approaches
collection starts empty. -/
def NearEarthObject.init (designation : String) (hazardous : Bool)
    (name : Option String) (diameter : String) : Option NearEarthObject :=
  (pyFloat? diameter).map fun d =>
    { designation := designation
      name := match name with
        | some s => if s = "" then none else some s
        | none => none
      diameter := d
      hazardous := hazardous
      approaches := [] }

/-- Embedding of the `NearEarthObject.fullname` property (src/models.py):
`f"{designation} ({name})" if self.name else f"{designation}"`. -/
def NearEarthObject.fullname (n : NearEarthObject) : String :=
  match n.name with
  | some s => if s = "" then n.designation else n.designation ++ " (" ++ s ++ ")"
  | none => n.designation

/-- Embedding of `NearEarthObject.__str__` (src/models.py): mention the
diameter only when it is known (`not math.isnan(self.diameter)`). -/
def NearEarthObject.str (n : NearEarthObject) : String :=
  let is_hazardous := if n.hazardous then "is" else "is not"
  match n.diameter with
  | .nan => "NEO " ++ n.fullname ++ " " ++ is_hazardous ++ " potentially hazardous."
  | .num q =>
      "NEO " ++ n.fullname ++ " has a diameter of " ++ fixedStr 3 (.num q) ++
        " km and " ++ is_hazardous ++ " potentially hazardous."

/-- Embedding of `NearEarthObject.__repr__` (src/models.py). -/
def NearEarthObject.repr (n : NearEarthObject) : String :=
  "NearEarthObject(designation=" ++ pyRepr n.designation ++ ", name=" ++ pyReprOpt n.name ++
    ", diameter=" ++ fixedStr 3 n.diameter ++ ", hazardous=" ++
    (if n.hazardous then "True" else "False") ++ ")"

/-- Modelled from the spec: serialization of a NEO to a flat mapping
(the write/serialize layer is not under src/).  Missing name is
reported as the empty string and unknown diameter as `0.0`. -/
structure NeoFlat where
  designation : String
  name : String
  diameter_km : PyFloat
  potentially_hazardous : Bool
deriving DecidableEq

/-- Modelled from the spec: the NEO serialization contract — substitute
`""` for a missing name and `0.0` for a not-a-number diameter. -/
def NearEarthObject.serialize (n : NearEarthObject) : NeoFlat :=
  { designation := n.designation
    name := n.name.getD ""
    diameter_km := match n.diameter with
      | .nan => .num 0
      | d => d
    potentially_hazardous := n.hazardous }

/-- Embedding of `CloseApproach` (src/models.py): foreign-key
designation, structured time, distance, velocity, and the linked NEO
reference (arena-style: the index of the NEO in the database's NEO
list), `none` until linking. -/
structure CloseApproach where
  _designation : String
  time : DateTime
  distance : PyFloat
  velocity : PyFloat
  neo : Option ℕ
deriving DecidableEq

/-- Embedding of `CloseApproach.__init__` (src/models.py):
`cd_to_datetime(dt)`, `float(distance)`, `float(velocity)` each raise on
bad input (result `none`); the NEO reference starts as `None`. -/
def CloseApproach.init (designation : String) (dt : String)
    (distance : String) (velocity : String) : Option CloseApproach :=
  match cd_to_datetime dt, pyFloat? distance, pyFloat? velocity with
  | some t, some d, some v => some ⟨designation, t, d, v, none⟩
  | _, _, _ => none

/-- Embedding of the `CloseApproach.time_str` property (src/models.py). -/
def CloseApproach.time_str (ca : CloseApproach) : String := datetime_to_str ca.time

/-- Embedding of `CloseApproach.__str__` (src/models.py).  The body
dereferences `self.neo.fullname`; when the reference is still `None`
that raises `AttributeError`, embedded as `none`.  The NEO list of the
database resolves the arena-style reference. -/
def CloseApproach.str (neos : List NearEarthObject) (ca : CloseApproach) : Option String :=
  match ca.neo with
  | none => none
  | some i =>
    match neos[i]? with
    | none => none
    | some n =>
        some ("At " ++ ca.time_str ++ ", " ++ sq ++ n.fullname ++ sq ++
          " approaches Earth at a distance of " ++ fixedStr 2 ca.distance ++
          " au and a velocity of " ++ fixedStr 2 ca.velocity ++ " km/s.")

/-- Embedding of `CloseApproach.__repr__` (src/models.py): total — an
unset NEO reference renders as `None` via `{self.neo!r}`. -/
def CloseApproach.repr (neos : List NearEarthObject) (ca : CloseApproach) : String :=
  "CloseApproach(time=" ++ pyRepr ca.time_str ++ ", distance=" ++ fixedStr 2 ca.distance ++
    ", velocity=" ++ fixedStr 2 ca.velocity ++ ", neo=" ++
    (match ca.neo with
      | none => "None"
      | some i =>
        match neos[i]? with
        | none => "None"
        | some n => n.repr) ++ ")"

/-- Raw NEO record as `csv.DictReader` delivers it to `load_neos`:
every field a string. -/
structure NeoRecord where
  pdes : String
  name : String
  diameter : String
  pha : String
deriving DecidableEq

/-- Per-record body of `load_neos` (src/extract.py): construct a
`NearEarthObject` from `pdes`, `name`, `diameter` (empty replaced by
the `"nan"` sentinel), and `pha == "Y"`. -/
def neoFromRecord (item : NeoRecord) : Option NearEarthObject :=
  NearEarthObject.init item.pdes (item.pha == "Y") (some item.name)
    (if item.diameter ≠ "" then item.diameter else "nan")

/-- Embedding of `load_neos` (src/extract.py): per record, try to
construct; on an exception print-and-skip, otherwise append — i.e.,
keep exactly the successful constructions in input order. -/
def load_neos (records : List NeoRecord) : List NearEarthObject :=
  records.filterMap neoFromRecord

/-- Raw close-approach record as `load_approaches` assembles it from the
JSON `fields`/`data` arrays: every field a string. -/
structure CadRecord where
  des : String
  cd : String
  dist : String
  v_rel : String
deriving DecidableEq

/-- Per-record body of `load_approaches` (src/extract.py). -/
def caFromRecord (item : CadRecord) : Option CloseApproach :=
  CloseApproach.init item.des item.cd item.dist item.v_rel

/-- Embedding of `load_approaches` (src/extract.py): per record, try to
construct; on an exception print-skip-continue, otherwise append. -/
def load_approaches (records : List CadRecord) : List CloseApproach :=
  records.filterMap caFromRecord

/-- Modelled from the spec: the designation → NEO mapping the indexer
(`database.py`, not under src/) builds, keyed last-write-wins on
duplicate designations.  Returns the index of the matching NEO.
The auxiliary carries the index offset of the list head. -/
def lookupDesAux (d : String) : List NearEarthObject → ℕ → Option ℕ
  | [], _ => none
  | n :: rest, i =>
    match lookupDesAux d rest (i + 1) with
    | some j => some j
    | none => if n.designation = d then some i else none

/-- Modelled from the spec: designation lookup in the indexer's mapping,
last-write-wins. -/
def lookupDes (neos : List NearEarthObject) (d : String) : Option ℕ := lookupDesAux d neos 0

/-- Modelled from the spec: the link phase on the approach side — for
every CloseApproach, look up its designation among the loaded NEOs and
set its `neo` reference when found, leaving it unset otherwise. -/
def linkCas (neos : List NearEarthObject) (cas : List CloseApproach) : List CloseApproach :=
  cas.map fun ca => { ca with neo := lookupDes neos ca._designation }

/-- Indices of the close approaches that link to the NEO at index `i`,
in input order; the auxiliary carries the index offset of the head. -/
def linkedIndicesAux (neos : List NearEarthObject) (i : ℕ) :
    List CloseApproach → ℕ → List ℕ
  | [], _ => []
  | ca :: rest, j =>
    (if lookupDes neos ca._designation = some i then [j] else []) ++
      linkedIndicesAux neos i rest (j + 1)

/-- Indices of the close approaches that link to the NEO at index `i`. -/
def linkedIndices (neos : List NearEarthObject) (cas : List CloseApproach) (i : ℕ) : List ℕ :=
  linkedIndicesAux neos i cas 0

/-- Modelled from the spec: the link phase on the NEO side — each NEO's
`approaches` collection receives, in order, every close approach whose
designation resolves to it. -/
def linkNeosAux (neos₀ : List NearEarthObject) (cas : List CloseApproach) :
    List NearEarthObject → ℕ → List NearEarthObject
  | [], _ => []
  | n :: rest, i =>
    { n with approaches := linkedIndices neos₀ cas i } :: linkNeosAux neos₀ cas rest (i + 1)

/-- Modelled from the spec: the NEO side of the link phase over the
whole loaded NEO list. -/
def linkNeos (neos : List NearEarthObject) (cas : List CloseApproach) : List NearEarthObject :=
  linkNeosAux neos cas neos 0

/-- Inversion of the NEO constructor: it succeeds exactly when the
diameter input parses, and the resulting object has the normalized
name, the parsed diameter, the given flags and no approaches. -/
theorem init_eq_some {des : String} {hz : Bool} {nm : Option String} {di : String}
    {n : NearEarthObject} :
    NearEarthObject.init des hz nm di = some n ↔
      ∃ d, pyFloat? di = some d ∧
        n = ⟨des,
          (match nm with
            | some s => if s = "" then none else some s
            | none => none),
          d, hz, []⟩ := by
  unfold NearEarthObject.init
  rw [Option.map_eq_some']
  constructor
  · rintro ⟨d, hd, rfl⟩
    exact ⟨d, hd, rfl⟩
  · rintro ⟨d, hd, rfl⟩
    exact ⟨d, hd, rfl⟩

/-! Claim C1: diameter normalization. -/

/-- Counterexample to C1 as stated: construction does not map an
unparseable diameter input to not-a-number — `float("abc")` raises, so
no object is constructed at all (the record is then dropped by the
loader). -/
theorem C1_counterexample : NearEarthObject.init "433" false none "abc" = none := by decide

/-- C1 (amended): a NearEarthObject constructed with the missing-diameter
sentinel input `"nan"` (the constructor default, also substituted by the
loader for an empty diameter field) stores the not-a-number value, which
is never equal to itself and unequal to every real measurement; an
unparseable diameter input instead makes construction fail. -/
theorem C1_missing_diameter_is_nan :
    (∀ des hz nm n, NearEarthObject.init des hz nm "nan" = some n →
      n.diameter = PyFloat.nan ∧ pyEq n.diameter n.diameter = false ∧
        ∀ q, pyEq n.diameter (PyFloat.num q) = false) ∧
    (∀ des hz nm s, pyFloat? s = none → NearEarthObject.init des hz nm s = none) := by
  constructor
  · intro des hz nm n h
    rw [init_eq_some] at h
    obtain ⟨d, hd, rfl⟩ := h
    have hnan : d = PyFloat.nan := by
      have : pyFloat? "nan" = some PyFloat.nan := by decide
      rw [this] at hd
      exact (Option.some.injEq _ _ ▸ hd).symm
    subst hnan
    exact ⟨rfl, rfl, fun q => rfl⟩
  · intro des hz nm s hs
    simp [NearEarthObject.init, hs]

/-- Witness for C1: evaluates the amended claim at concrete inputs. -/
theorem C1_missing_diameter_is_nan_witness :
    pyEq PyFloat.nan PyFloat.nan = false ∧
      NearEarthObject.init "2020 AB" true none "12..7" = none := by
  refine ⟨?_, C1_missing_diameter_is_nan.2 "2020 AB" true none "12..7" (by decide)⟩
  have h := (C1_missing_diameter_is_nan.1 "433" true none
    ⟨"433", none, PyFloat.nan, true, []⟩ (by decide)).2.1
  exact h

/-! Claim C4: name normalization. -/

/-- C4: an empty or absent name input is stored as the explicit absence
value `None`, never as the empty string; a non-empty name input is
stored as given. -/
theorem C4_name_normalization :
    ∀ des hz di n,
      (NearEarthObject.init des hz (some "") di = some n → n.name = none) ∧
      (NearEarthObject.init des hz none di = some n → n.name = none) ∧
      (∀ s, s ≠ "" → NearEarthObject.init des hz (some s) di = some n → n.name = some s) := by
  intro des hz di n
  refine ⟨fun h => ?_, fun h => ?_, fun s hs h => ?_⟩ <;>
    rw [init_eq_some] at h <;> obtain ⟨d, -, rfl⟩ := h
  · rfl
  · rfl
  · simp [hs]

/-- Witness for C4: evaluates the claim at concrete inputs. -/
theorem C4_name_normalization_witness :
    (⟨"433", none, PyFloat.nan, false, []⟩ : NearEarthObject).name = none ∧
      (⟨"433", some "Eros", PyFloat.nan, false, []⟩ : NearEarthObject).name = some "Eros" :=
  ⟨(C4_name_normalization "433" false "nan" ⟨"433", none, PyFloat.nan, false, []⟩).1
      (by decide),
   (C4_name_normalization "433" false "nan" ⟨"433", some "Eros", PyFloat.nan, false, []⟩).2.2
      "Eros" (by decide) (by decide)⟩

/-! Claim C5: the derived fullname. -/

/-- C5: for every constructed NearEarthObject, `fullname` is
`"{designation} ({name})"` when the name is present and just the
designation when it is absent. -/
theorem C5_fullname :
    ∀ des hz nm di n, NearEarthObject.init des hz nm di = some n →
      (∀ s, n.name = some s → n.fullname = n.designation ++ " (" ++ s ++ ")") ∧
      (n.name = none → n.fullname = n.designation) := by
  intro des hz nm di n h
  rw [init_eq_some] at h
  obtain ⟨d, -, rfl⟩ := h
  constructor
  · intro s hs
    match nm with
    | none => simp at hs
    | some t =>
      by_cases ht : t = "" <;> simp [ht] at hs
      subst hs
      simp [NearEarthObject.fullname, ht]
  · intro hn
    match nm with
    | none => simp [NearEarthObject.fullname]
    | some t =>
      by_cases ht : t = ""
      · simp [NearEarthObject.fullname, ht]
      · simp [ht] at hn

/-- Witness for C5: the spec's own example — designation `433` with name
`Eros` yields fullname `433 (Eros)`. -/
theorem C5_fullname_witness :
    (⟨"433", some "Eros", PyFloat.nan, false, []⟩ : NearEarthObject).fullname = "433 (Eros)" := by
  have h := (C5_fullname "433" false (some "Eros") "nan"
    ⟨"433", some "Eros", PyFloat.nan, false, []⟩ (by decide)).1 "Eros" (by decide)
  exact h.trans (by decide)

/-! Claim C6: the hazard flag. -/

/-- C6: a loaded NearEarthObject's `hazardous` field is true exactly when
the raw record's `pha` flag is the single character `Y`; every other
flag value (empty, `N`, lowercase `y`, …) yields false. -/
theorem C6_hazardous_flag :
    ∀ item n, neoFromRecord item = some n → (n.hazardous = true ↔ item.pha = "Y") := by
  intro item n h
  unfold neoFromRecord at h
  rw [init_eq_some] at h
  obtain ⟨d, -, rfl⟩ := h
  simp

/-- Witness for C6: evaluates the claim on records with flags `Y` and
lowercase `y`. -/
theorem C6_hazardous_flag_witness :
    (⟨"1", none, PyFloat.nan, true, []⟩ : NearEarthObject).hazardous = true ∧
      ¬ (⟨"3", none, PyFloat.nan, false, []⟩ : NearEarthObject).hazardous = true := by
  constructor
  · exact (C6_hazardous_flag ⟨"1", "", "", "Y"⟩ ⟨"1", none, PyFloat.nan, true, []⟩
      (by decide)).mpr rfl
  · intro h
    have h2 := (C6_hazardous_flag ⟨"3", "", "", "y"⟩ ⟨"3", none, PyFloat.nan, false, []⟩
      (by decide)).mp h
    exact absurd h2 (by decide)

/-! Claim C9: freshly constructed objects are unlinked. -/

/-- C9: immediately after construction every NearEarthObject's
`approaches` collection is empty and every CloseApproach's `neo`
reference is `None`; in particular this holds for everything the two
loaders return, before any linking. -/
theorem C9_unlinked_at_construction :
    (∀ des hz nm di n, NearEarthObject.init des hz nm di = some n → n.approaches = []) ∧
    (∀ des dt di v ca, CloseApproach.init des dt di v = some ca → ca.neo = none) ∧
    (∀ records n, n ∈ load_neos records → n.approaches = []) ∧
    (∀ records ca, ca ∈ load_approaches records → ca.neo = none) := by
  have hneo : ∀ des hz nm di n, NearEarthObject.init des hz nm di = some n →
      n.approaches = [] := by
    intro des hz nm di n h
    rw [init_eq_some] at h
    obtain ⟨d, -, rfl⟩ := h
    rfl
  have hca : ∀ des dt di v ca, CloseApproach.init des dt di v = some ca → ca.neo = none := by
    intro des dt di v ca h
    unfold CloseApproach.init at h
    split at h
    · simp only [Option.some.injEq] at h
      subst h
      rfl
    · exact absurd h (by simp)
  refine ⟨hneo, hca, ?_, ?_⟩
  · intro records n hn
    simp only [load_neos, List.mem_filterMap] at hn
    obtain ⟨item, -, hitem⟩ := hn
    exact hneo _ _ _ _ _ hitem
  · intro records ca hmem
    simp only [load_approaches, List.mem_filterMap] at hmem
    obtain ⟨item, -, hitem⟩ := hmem
    exact hca _ _ _ _ _ hitem

/-- Witness for C9: evaluates the claim on concrete constructions. -/
theorem C9_unlinked_at_construction_witness :
    (⟨"433", some "Eros", PyFloat.nan, false, []⟩ : NearEarthObject).approaches = [] ∧
      (⟨"433", ⟨1995, 1, 1, 12, 0⟩, PyFloat.nan, PyFloat.nan, none⟩ : CloseApproach).neo =
        none :=
  ⟨C9_unlinked_at_construction.1 "433" false (some "Eros") "nan"
      ⟨"433", some "Eros", PyFloat.nan, false, []⟩ (by decide),
   C9_unlinked_at_construction.2.1 "433" "1995-01-01 12:00" "nan" "nan"
      ⟨"433", ⟨1995, 1, 1, 12, 0⟩, PyFloat.nan, PyFloat.nan, none⟩ (by decide)⟩

/-! Claim C3: per-record error containment in the loaders. -/

/-- C3: each loader drops exactly the records whose construction fails
and keeps the successfully constructed entities in input order — a bad
record in the middle of the input never aborts the load or disturbs the
surrounding records. -/
theorem C3_loader_drops_bad_records :
    (∀ pre post bad, neoFromRecord bad = none →
      load_neos (pre ++ bad :: post) = load_neos pre ++ load_neos post) ∧
    (∀ pre post r n, neoFromRecord r = some n →
      load_neos (pre ++ r :: post) = load_neos pre ++ n :: load_neos post) ∧
    (∀ pre post bad, caFromRecord bad = none →
      load_approaches (pre ++ bad :: post) = load_approaches pre ++ load_approaches post) ∧
    (∀ pre post r ca, caFromRecord r = some ca →
      load_approaches (pre ++ r :: post) = load_approaches pre ++ ca :: load_approaches post) := by
  refine ⟨fun pre post bad h => ?_, fun pre post r n h => ?_,
    fun pre post bad h => ?_, fun pre post r ca h => ?_⟩ <;>
    simp [load_neos, load_approaches, List.filterMap_append, List.filterMap_cons, h]

/-- Witness for C3: a malformed diameter in the middle of a NEO load and
a malformed date in the middle of an approach load are each skipped. -/
theorem C3_loader_drops_bad_records_witness :
    load_neos ([⟨"1", "", "", "Y"⟩] ++ ⟨"2", "", "oops", "N"⟩ :: [⟨"3", "", "", "N"⟩]) =
        load_neos [⟨"1", "", "", "Y"⟩] ++ load_neos [⟨"3", "", "", "N"⟩] ∧
      load_approaches ([⟨"1", "1995-01-01 12:00", "nan", "nan"⟩] ++
          ⟨"2", "not a date", "nan", "nan"⟩ :: [⟨"3", "1995-01-01 13:00", "nan", "nan"⟩]) =
        load_approaches [⟨"1", "1995-01-01 12:00", "nan", "nan"⟩] ++
          load_approaches [⟨"3", "1995-01-01 13:00", "nan", "nan"⟩] :=
  ⟨C3_loader_drops_bad_records.1 [⟨"1", "", "", "Y"⟩] [⟨"3", "", "", "N"⟩]
      ⟨"2", "", "oops", "N"⟩ (by decide),
   C3_loader_drops_bad_records.2.2.1 [⟨"1", "1995-01-01 12:00", "nan", "nan"⟩]
      [⟨"3", "1995-01-01 13:00", "nan", "nan"⟩]
      ⟨"2", "not a date", "nan", "nan"⟩ (by decide)⟩

/-! Claim C8: serialization defaults versus display views. -/

/-- C8: serialization to the flat mapping substitutes the filled
defaults — `""` for a missing name, `0.0` for an unknown diameter —
while known values pass through unchanged; the display and debug views
instead show the true unknown state (the human-readable view omits the
diameter sentence, the fixed-point formatter renders `nan`, and `repr`
renders the missing name as `None`). -/
theorem C8_serialization_defaults :
    ∀ n : NearEarthObject,
      (n.diameter = PyFloat.nan →
        n.serialize.diameter_km = PyFloat.num 0 ∧
        pyEq n.diameter n.diameter = false ∧
        fixedStr 3 n.diameter = "nan" ∧
        n.str = "NEO " ++ n.fullname ++ " " ++ (if n.hazardous then "is" else "is not") ++
          " potentially hazardous.") ∧
      (n.name = none → n.serialize.name = "" ∧ pyReprOpt n.name = "None") ∧
      (∀ q, n.diameter = PyFloat.num q → n.serialize.diameter_km = PyFloat.num q) ∧
      (∀ s, n.name = some s → n.serialize.name = s) := by
  intro n
  refine ⟨fun hd => ?_, fun hn => ?_, fun q hd => ?_, fun s hn => ?_⟩
  · refine ⟨?_, ?_, ?_, ?_⟩
    · simp [NearEarthObject.serialize, hd]
    · rw [hd]; rfl
    · rw [hd]; rfl
    · cases n with
      | mk des nm di hz ap =>
        simp only at hd
        subst hd
        rfl
  · exact ⟨by simp [NearEarthObject.serialize, hn], by rw [hn]; rfl⟩
  · simp [NearEarthObject.serialize, hd]
  · simp [NearEarthObject.serialize, hn]

/-- Witness for C8: a NEO loaded with empty name and empty diameter
serializes to `""` and `0.0` while its own fields keep the unknown
state. -/
theorem C8_serialization_defaults_witness :
    (⟨"433", none, PyFloat.nan, false, []⟩ : NearEarthObject).serialize.diameter_km =
        PyFloat.num 0 ∧
      (⟨"433", none, PyFloat.nan, false, []⟩ : NearEarthObject).serialize.name = "" ∧
      pyEq (⟨"433", none, PyFloat.nan, false, []⟩ : NearEarthObject).diameter
        (⟨"433", none, PyFloat.nan, false, []⟩ : NearEarthObject).diameter = false :=
  ⟨((C8_serialization_defaults ⟨"433", none, PyFloat.nan, false, []⟩).1 rfl).1,
   ((C8_serialization_defaults ⟨"433", none, PyFloat.nan, false, []⟩).2.1 rfl).1,
   ((C8_serialization_defaults ⟨"433", none, PyFloat.nan, false, []⟩).1 rfl).2.1⟩

/-! Claim C10: string views of an unlinked CloseApproach. -/

/-- C10: on a CloseApproach whose NEO reference is still unset, the
human-readable view fails (it dereferences the absent NEO's fullname)
while the computer-readable view succeeds and renders the reference as
`None`. -/
theorem C10_str_fails_repr_succeeds :
    ∀ neos ca, ca.neo = none →
      CloseApproach.str neos ca = none ∧
      CloseApproach.repr neos ca =
        "CloseApproach(time=" ++ pyRepr ca.time_str ++ ", distance=" ++
          fixedStr 2 ca.distance ++ ", velocity=" ++ fixedStr 2 ca.velocity ++
          ", neo=" ++ "None" ++ ")" := by
  intro neos ca h
  constructor
  · unfold CloseApproach.str
    rw [h]
  · unfold CloseApproach.repr
    rw [h]

/-- Witness for C10: evaluates both views on a concrete unlinked
approach. -/
theorem C10_str_fails_repr_succeeds_witness :
    CloseApproach.str [] ⟨"433", ⟨1995, 1, 1, 12, 0⟩, PyFloat.nan, PyFloat.nan, none⟩ = none ∧
      CloseApproach.repr [] ⟨"433", ⟨1995, 1, 1, 12, 0⟩, PyFloat.nan, PyFloat.nan, none⟩ =
        "CloseApproach(time=" ++
          pyRepr (CloseApproach.time_str ⟨"433", ⟨1995, 1, 1, 12, 0⟩, PyFloat.nan, PyFloat.nan, none⟩) ++
          ", distance=" ++ fixedStr 2 PyFloat.nan ++ ", velocity=" ++ fixedStr 2 PyFloat.nan ++
          ", neo=" ++ "None" ++ ")" :=
  C10_str_fails_repr_succeeds []
    ⟨"433", ⟨1995, 1, 1, 12, 0⟩, PyFloat.nan, PyFloat.nan, none⟩ rfl

theorem isDigit_bounds {c : Char} (h : isDigitB c = true) : 48 ≤ c.toNat ∧ c.toNat ≤ 57 := by
  simpa [isDigitB] using h

theorem digitVal_lt {c : Char} (h : isDigitB c = true) : digitVal c < 10 := by
  have hb := isDigit_bounds h
  unfold digitVal
  omega

theorem digitCh_digitVal {c : Char} (h : isDigitB c = true) : digitCh (digitVal c) = c := by
  have hb := isDigit_bounds h
  unfold digitCh digitVal
  rw [show 48 + (c.toNat - 48) = c.toNat by omega]
  exact Char.ofNat_toNat c

theorem twoDigits_encode {a b : Char} (ha : isDigitB a = true) (hb : isDigitB b = true) :
    twoDigits (10 * digitVal a + digitVal b) = [a, b] := by
  have ha' := digitVal_lt ha
  have hb' := digitVal_lt hb
  unfold twoDigits
  rw [show (10 * digitVal a + digitVal b) / 10 % 10 = digitVal a by omega,
    show (10 * digitVal a + digitVal b) % 10 = digitVal b by omega,
    digitCh_digitVal ha, digitCh_digitVal hb]

theorem fourDigits_encode {a b c d : Char} (ha : isDigitB a = true) (hb : isDigitB b = true)
    (hc : isDigitB c = true) (hd : isDigitB d = true) :
    fourDigits (1000 * digitVal a + 100 * digitVal b + 10 * digitVal c + digitVal d) =
      [a, b, c, d] := by
  have ha' := digitVal_lt ha
  have hb' := digitVal_lt hb
  have hc' := digitVal_lt hc
  have hd' := digitVal_lt hd
  unfold fourDigits
  rw [show (1000 * digitVal a + 100 * digitVal b + 10 * digitVal c + digitVal d) / 1000 % 10 =
      digitVal a by omega,
    show (1000 * digitVal a + 100 * digitVal b + 10 * digitVal c + digitVal d) / 100 % 10 =
      digitVal b by omega,
    show (1000 * digitVal a + 100 * digitVal b + 10 * digitVal c + digitVal d) / 10 % 10 =
      digitVal c by omega,
    show (1000 * digitVal a + 100 * digitVal b + 10 * digitVal c + digitVal d) % 10 =
      digitVal d by omega,
    digitCh_digitVal ha, digitCh_digitVal hb, digitCh_digitVal hc, digitCh_digitVal hd]

/-- Parsing the numeric form and formatting the result reproduces the
original string. -/
theorem parseNumeric_roundtrip {s : String} {t : DateTime}
    (h : parseNumericCd s = some t) : datetime_to_str t = s := by
  obtain ⟨data⟩ := s
  unfold parseNumericCd at h
  split at h
  · rename_i y1 y2 y3 y4 m1 m2 d1 d2 h1 h2 n1 n2 hdata
    split at h
    · rename_i hdig
      dsimp only at h
      split at h
      · simp only [Option.some.injEq] at h
        subst h
        simp only [Bool.and_eq_true] at hdig
        obtain ⟨⟨⟨⟨⟨⟨⟨⟨⟨⟨⟨hy1, hy2⟩, hy3⟩, hy4⟩, hm1⟩, hm2⟩, hd1⟩, hd2⟩, hh1⟩, hh2⟩, hn1⟩, hn2⟩ := hdig
        unfold datetime_to_str
        rw [fourDigits_encode hy1 hy2 hy3 hy4, twoDigits_encode hm1 hm2,
          twoDigits_encode hd1 hd2, twoDigits_encode hh1 hh2, twoDigits_encode hn1 hn2]
        simp only [String.data] at hdata
        subst hdata
        rfl
      · exact absurd h (by simp)
    · exact absurd h (by simp)
  · exact absurd h (by simp)

/-- A string accepted by the abbreviated-month form has 17 characters. -/
theorem parseAbbrev_length {s : String} {t : DateTime} (h : parseAbbrevCd s = some t) :
    s.data.length = 17 := by
  unfold parseAbbrevCd at h
  split at h
  · rename_i y1 y2 y3 y4 a b c d1 d2 h1 h2 n1 n2 hdata
    rw [hdata]
    rfl
  · exact absurd h (by simp)

/-- Parsing a 16-character date-time string (necessarily the numeric
display form) and formatting the result reproduces the original
string. -/
theorem cd_roundtrip {s : String} {t : DateTime} (h : cd_to_datetime s = some t)
    (hlen : s.data.length = 16) :
    datetime_to_str t = s := by
  unfold cd_to_datetime at h
  cases hnum : parseNumericCd s with
  | some t2 =>
    rw [hnum] at h
    simp only [Option.some.injEq] at h
    subst h
    exact parseNumeric_roundtrip hnum
  | none =>
    rw [hnum] at h
    dsimp only at h
    have hl := parseAbbrev_length h
    omega

/-- Encoding a value below ten and decoding gives the value back. -/
theorem digitVal_digitCh {v : ℕ} (h : v < 10) : digitVal (digitCh v) = v := by
  interval_cases v <;> decide

/-- An encoded digit is a digit character. -/
theorem isDigitB_digitCh {v : ℕ} (h : v < 10) : isDigitB (digitCh v) = true := by
  interval_cases v <;> decide

/-- An encoded last decimal digit is a digit character. -/
theorem isDigitB_digitCh_mod (x : ℕ) : isDigitB (digitCh (x % 10)) = true :=
  isDigitB_digitCh (Nat.mod_lt _ (by norm_num))

/-- Decoding a two-digit rendering of a value below 100 gives the value
back. -/
theorem decode2 {x : ℕ} (hx : x < 100) :
    10 * digitVal (digitCh (x / 10 % 10)) + digitVal (digitCh (x % 10)) = x := by
  rw [digitVal_digitCh (Nat.mod_lt _ (by norm_num)),
    digitVal_digitCh (Nat.mod_lt _ (by norm_num))]
  omega

/-- Decoding a four-digit rendering of a value below 10000 gives the
value back. -/
theorem decode4 {x : ℕ} (hx : x < 10000) :
    1000 * digitVal (digitCh (x / 1000 % 10)) + 100 * digitVal (digitCh (x / 100 % 10)) +
      10 * digitVal (digitCh (x / 10 % 10)) + digitVal (digitCh (x % 10)) = x := by
  rw [digitVal_digitCh (Nat.mod_lt _ (by norm_num)),
    digitVal_digitCh (Nat.mod_lt _ (by norm_num)),
    digitVal_digitCh (Nat.mod_lt _ (by norm_num)),
    digitVal_digitCh (Nat.mod_lt _ (by norm_num))]
  omega

/-- An abbreviated month name denotes a month between 1 and 12. -/
theorem monthAbbrev_bounds {cs : List Char} {m : ℕ} (h : monthOfAbbrev? cs = some m) :
    1 ≤ m ∧ m ≤ 12 := by
  unfold monthOfAbbrev? at h
  rw [Option.map_eq_some'] at h
  obtain ⟨p, hp, rfl⟩ := h
  have hmem := List.mem_of_find?_eq_some hp
  have hall : ∀ q ∈ monthAbbrevTable, 1 ≤ q.2 ∧ q.2 ≤ 12 := by decide
  exact hall p hmem

/-- Every date-time the numeric form accepts satisfies the field bounds
the format can express. -/
theorem parseNumeric_bounds {s : String} {t : DateTime} (h : parseNumericCd s = some t) :
    t.year < 10000 ∧ 1 ≤ t.month ∧ t.month ≤ 12 ∧ 1 ≤ t.day ∧ t.day ≤ 31 ∧
      t.hour ≤ 23 ∧ t.minute ≤ 59 := by
  unfold parseNumericCd at h
  split at h
  · rename_i y1 y2 y3 y4 m1 m2 d1 d2 h1 h2 n1 n2 hdata
    split at h
    · rename_i hdig
      dsimp only at h
      split at h
      · rename_i hrange
        simp only [Option.some.injEq] at h
        subst h
        simp only [Bool.and_eq_true] at hdig
        obtain ⟨⟨⟨⟨⟨⟨⟨⟨⟨⟨⟨hy1, hy2⟩, hy3⟩, hy4⟩, hm1⟩, hm2⟩, hd1⟩, hd2⟩, hh1⟩, hh2⟩, hn1⟩, hn2⟩ := hdig
        have b1 := digitVal_lt hy1
        have b2 := digitVal_lt hy2
        have b3 := digitVal_lt hy3
        have b4 := digitVal_lt hy4
        simp only [Bool.and_eq_true, decide_eq_true_eq] at hrange
        obtain ⟨⟨⟨⟨⟨hr1, hr2⟩, hr3⟩, hr4⟩, hr5⟩, hr6⟩ := hrange
        dsimp only
        exact ⟨by omega, hr1, hr2, hr3, hr4, hr5, hr6⟩
      · exact absurd h (by simp)
    · exact absurd h (by simp)
  · exact absurd h (by simp)

/-- Every date-time the abbreviated form accepts satisfies the field
bounds the format can express. -/
theorem parseAbbrev_bounds {s : String} {t : DateTime} (h : parseAbbrevCd s = some t) :
    t.year < 10000 ∧ 1 ≤ t.month ∧ t.month ≤ 12 ∧ 1 ≤ t.day ∧ t.day ≤ 31 ∧
      t.hour ≤ 23 ∧ t.minute ≤ 59 := by
  unfold parseAbbrevCd at h
  split at h
  · rename_i y1 y2 y3 y4 a b c d1 d2 h1 h2 n1 n2 hdata
    split at h
    · rename_i hdig
      cases hmo : monthOfAbbrev? [a, b, c] with
      | none =>
        rw [hmo] at h
        exact absurd h (by simp)
      | some mo =>
        rw [hmo] at h
        dsimp only at h
        split at h
        · rename_i hrange
          simp only [Option.some.injEq] at h
          subst h
          simp only [Bool.and_eq_true] at hdig
          obtain ⟨⟨⟨⟨⟨⟨⟨⟨⟨hy1, hy2⟩, hy3⟩, hy4⟩, hd1⟩, hd2⟩, hh1⟩, hh2⟩, hn1⟩, hn2⟩ := hdig
          have b1 := digitVal_lt hy1
          have b2 := digitVal_lt hy2
          have b3 := digitVal_lt hy3
          have b4 := digitVal_lt hy4
          have hmb := monthAbbrev_bounds hmo
          simp only [Bool.and_eq_true, decide_eq_true_eq] at hrange
          obtain ⟨⟨⟨hr1, hr2⟩, hr3⟩, hr4⟩ := hrange
          dsimp only
          exact ⟨by omega, hmb.1, hmb.2, hr1, hr2, hr3, hr4⟩
        · exact absurd h (by simp)
    · exact absurd h (by simp)
  · exact absurd h (by simp)

/-- Every parsed date-time satisfies the field bounds the format can
express. -/
theorem parse_bounds {s : String} {t : DateTime} (h : cd_to_datetime s = some t) :
    t.year < 10000 ∧ 1 ≤ t.month ∧ t.month ≤ 12 ∧ 1 ≤ t.day ∧ t.day ≤ 31 ∧
      t.hour ≤ 23 ∧ t.minute ≤ 59 := by
  unfold cd_to_datetime at h
  cases hnum : parseNumericCd s with
  | some t2 =>
    rw [hnum] at h
    simp only [Option.some.injEq] at h
    subst h
    exact parseNumeric_bounds hnum
  | none =>
    rw [hnum] at h
    dsimp only at h
    exact parseAbbrev_bounds h

/-- Formatting a bounded date-time and parsing with the numeric form
gives the same value back. -/
theorem formatNumeric_parse {t : DateTime} (hy : t.year < 10000) (hm1 : 1 ≤ t.month)
    (hm2 : t.month ≤ 12) (hd1 : 1 ≤ t.day) (hd2 : t.day ≤ 31) (hh : t.hour ≤ 23)
    (hn : t.minute ≤ 59) : parseNumericCd (datetime_to_str t) = some t := by
  obtain ⟨y, mo, d, h, n⟩ := t
  dsimp only at hy hm1 hm2 hd1 hd2 hh hn
  have hdata : (datetime_to_str ⟨y, mo, d, h, n⟩).data =
      [digitCh (y / 1000 % 10), digitCh (y / 100 % 10), digitCh (y / 10 % 10), digitCh (y % 10),
        '-', digitCh (mo / 10 % 10), digitCh (mo % 10), '-', digitCh (d / 10 % 10),
        digitCh (d % 10), ' ', digitCh (h / 10 % 10), digitCh (h % 10), ':',
        digitCh (n / 10 % 10), digitCh (n % 10)] := rfl
  unfold parseNumericCd
  split
  · rename_i y1 y2 y3 y4 m1 m2 d1 d2 h1 h2 n1 n2 heq
    rw [hdata] at heq
    simp only [List.cons.injEq, and_true, true_and] at heq
    obtain ⟨e1, e2, e3, e4, e5, e6, e7, e8, e9, e10, e11, e12⟩ := heq
    subst e1; subst e2; subst e3; subst e4; subst e5; subst e6
    subst e7; subst e8; subst e9; subst e10; subst e11; subst e12
    simp only [isDigitB_digitCh_mod, Bool.and_self, if_true]
    rw [decode4 hy, decode2 (show mo < 100 by omega), decode2 (show d < 100 by omega),
      decode2 (show h < 100 by omega), decode2 (show n < 100 by omega)]
    rw [if_pos (show (decide (1 ≤ mo) && decide (mo ≤ 12) && decide (1 ≤ d) &&
        decide (d ≤ 31) && decide (h ≤ 23) && decide (n ≤ 59)) = true by
      simp only [Bool.and_eq_true, decide_eq_true_eq]
      exact ⟨⟨⟨⟨⟨hm1, hm2⟩, hd1⟩, hd2⟩, hh⟩, hn⟩)]
  · rename_i hmiss
    exact absurd hdata (hmiss _ _ _ _ _ _ _ _ _ _ _ _)

/-- Formatting a bounded date-time and reparsing gives the same value:
the numeric display rendering is in the parser's accepted set and
decodes to the same structured time. -/
theorem format_parse {t : DateTime} (hy : t.year < 10000) (hm1 : 1 ≤ t.month)
    (hm2 : t.month ≤ 12) (hd1 : 1 ≤ t.day) (hd2 : t.day ≤ 31) (hh : t.hour ≤ 23)
    (hn : t.minute ≤ 59) : cd_to_datetime (datetime_to_str t) = some t := by
  unfold cd_to_datetime
  rw [formatNumeric_parse hy hm1 hm2 hd1 hd2 hh hn]

/-- Counterexample to C7 as stated: the spec's own end-to-end example
string `1900-Jan-01 12:00` is in the fixed external format (abbreviated
month, no seconds component at all) and constructs successfully, but
`time_str` yields the numeric display rendering `1900-01-01 12:00`, not
the original string. -/
theorem C7_counterexample :
    CloseApproach.init "433" "1900-Jan-01 12:00" "nan" "nan" =
        some ⟨"433", ⟨1900, 1, 1, 12, 0⟩, PyFloat.nan, PyFloat.nan, none⟩ ∧
      CloseApproach.time_str ⟨"433", ⟨1900, 1, 1, 12, 0⟩, PyFloat.nan, PyFloat.nan, none⟩ =
        "1900-01-01 12:00" ∧
      "1900-01-01 12:00" ≠ "1900-Jan-01 12:00" := by decide

/-- C7 (amended): parse followed by the display formatter is the exact
identity on date-time strings already in the numeric display format
`YYYY-MM-DD HH:MM` (16 characters); on every other accepted input —
the abbreviated-month external form — `time_str` instead renders the
same parsed instant in the display format, so it reparses to exactly
the constructed approach time. -/
theorem C7_time_str_roundtrip :
    ∀ dt des di v ca, CloseApproach.init des dt di v = some ca →
      (dt.data.length = 16 → ca.time_str = dt) ∧
      cd_to_datetime ca.time_str = some ca.time := by
  intro dt des di v ca h
  unfold CloseApproach.init at h
  split at h
  · rename_i t d vv htime hdist hvel
    simp only [Option.some.injEq] at h
    subst h
    constructor
    · intro hlen
      show datetime_to_str t = dt
      exact cd_roundtrip htime hlen
    · obtain ⟨b1, b2, b3, b4, b5, b6, b7⟩ := parse_bounds htime
      show cd_to_datetime (datetime_to_str t) = some t
      exact format_parse b1 b2 b3 b4 b5 b6 b7
  · exact absurd h (by simp)

/-- Witness for C7: the numeric display string round-trips exactly, and
the spec's abbreviated end-to-end example reparses to the same
structured time. -/
theorem C7_time_str_roundtrip_witness :
    CloseApproach.time_str ⟨"433", ⟨1995, 1, 1, 12, 0⟩, PyFloat.nan, PyFloat.nan, none⟩ =
        "1995-01-01 12:00" ∧
      cd_to_datetime (CloseApproach.time_str
          ⟨"433", ⟨1900, 1, 1, 12, 0⟩, PyFloat.nan, PyFloat.nan, none⟩) =
        some ⟨1900, 1, 1, 12, 0⟩ :=
  ⟨(C7_time_str_roundtrip "1995-01-01 12:00" "433" "nan" "nan"
      ⟨"433", ⟨1995, 1, 1, 12, 0⟩, PyFloat.nan, PyFloat.nan, none⟩ (by decide)).1 (by decide),
   (C7_time_str_roundtrip "1900-Jan-01 12:00" "433" "nan" "nan"
      ⟨"433", ⟨1900, 1, 1, 12, 0⟩, PyFloat.nan, PyFloat.nan, none⟩ (by decide)).2⟩

/-- Soundness of designation lookup: a hit names an index holding a NEO
with the looked-up designation. -/
theorem lookupDesAux_spec {d : String} :
    ∀ (l : List NearEarthObject) (k i : ℕ), lookupDesAux d l k = some i →
      ∃ m n, l[m]? = some n ∧ n.designation = d ∧ i = k + m := by
  intro l
  induction l with
  | nil => intro k i h; exact absurd h (by simp [lookupDesAux])
  | cons hd tl ih =>
    intro k i h
    cases hrec : lookupDesAux d tl (k + 1) with
    | some j =>
      simp only [lookupDesAux, hrec, Option.some.injEq] at h
      subst h
      obtain ⟨m, n, hm, hdes, hj⟩ := ih (k + 1) j hrec
      exact ⟨m + 1, n, by simpa using hm, hdes, by omega⟩
    | none =>
      simp only [lookupDesAux, hrec] at h
      split at h
      · rename_i hdes
        simp only [Option.some.injEq] at h
        subst h
        exact ⟨0, hd, by simp, hdes, by omega⟩
      · exact absurd h (by simp)

/-- Completeness of designation lookup: a NEO with the looked-up
designation in the list guarantees a hit. -/
theorem lookupDesAux_isSome {d : String} :
    ∀ (l : List NearEarthObject) (k : ℕ), (∃ n ∈ l, n.designation = d) →
      (lookupDesAux d l k).isSome = true := by
  intro l
  induction l with
  | nil => intro k h; simp at h
  | cons hd tl ih =>
    intro k h
    cases hrec : lookupDesAux d tl (k + 1) with
    | some j => simp [lookupDesAux, hrec]
    | none =>
      obtain ⟨n, hmem, hdes⟩ := h
      rcases List.mem_cons.mp hmem with heq | htl
      · subst heq
        simp [lookupDesAux, hrec, hdes]
      · have hx := ih (k + 1) ⟨n, htl, hdes⟩
        rw [hrec] at hx
        simp at hx

/-- Membership in the linked-index list: every close approach whose
designation resolves to NEO `i` is recorded, at its own index. -/
theorem linkedIndicesAux_mem {neos : List NearEarthObject} {i : ℕ} {ca : CloseApproach} :
    ∀ (l : List CloseApproach) (j k : ℕ), l[j]? = some ca →
      lookupDes neos ca._designation = some i → (k + j) ∈ linkedIndicesAux neos i l k := by
  intro l
  induction l with
  | nil => intro j k h; simp at h
  | cons hd tl ih =>
    intro j k h hl
    unfold linkedIndicesAux
    match j with
    | 0 =>
      simp only [List.getElem?_cons_zero, Option.some.injEq] at h
      subst h
      rw [if_pos hl]
      simp
    | jj + 1 =>
      simp only [List.getElem?_cons_succ] at h
      have := ih jj (k + 1) h hl
      rw [List.mem_append]
      right
      have heq : k + (jj + 1) = (k + 1) + jj := by omega
      rw [heq]
      exact this

/-- Indexing the NEO side of the link phase: position `i` holds the
original NEO at `i` with its approaches collection filled in. -/
theorem linkNeosAux_getElem {neos₀ : List NearEarthObject} {cas : List CloseApproach} :
    ∀ (l : List NearEarthObject) (k i : ℕ),
      (linkNeosAux neos₀ cas l k)[i]? =
        (l[i]?).map fun n => { n with approaches := linkedIndices neos₀ cas (k + i) } := by
  intro l
  induction l with
  | nil => intro k i; simp [linkNeosAux]
  | cons hd tl ih =>
    intro k i
    unfold linkNeosAux
    match i with
    | 0 => simp
    | ii + 1 =>
      simp only [List.getElem?_cons_succ]
      rw [ih (k + 1) ii]
      have heq : k + (ii + 1) = (k + 1) + ii := by omega
      rw [heq]

/-- C2: after the link phase, every CloseApproach whose designation
matches a loaded NEO's designation holds (as its `neo` reference) the
index of the NEO the designation map resolves to, and its own index is
a member of that NEO's `approaches` collection — the bidirectional link
is established between exactly those two objects. -/
theorem C2_link_bidirectional :
    ∀ neos cas j ca, cas[j]? = some ca →
      (∃ n ∈ neos, n.designation = ca._designation) →
      ∃ i, lookupDes neos ca._designation = some i ∧
        (∃ n, neos[i]? = some n ∧ n.designation = ca._designation) ∧
        (linkCas neos cas)[j]? = some { ca with neo := some i } ∧
        ∃ m, (linkNeos neos cas)[i]? = some m ∧ j ∈ m.approaches ∧
          m.designation = ca._designation := by
  intro neos cas j ca hj hex
  have hsome := lookupDesAux_isSome neos 0 hex
  obtain ⟨i, hi⟩ := Option.isSome_iff_exists.mp hsome
  have hi' : lookupDes neos ca._designation = some i := hi
  obtain ⟨m, n, hm, hdes, him⟩ := lookupDesAux_spec neos 0 i hi
  have him' : i = m := by omega
  subst him'
  refine ⟨i, hi', ⟨n, hm, hdes⟩, ?_, ?_⟩
  · unfold linkCas
    rw [List.getElem?_map, hj]
    simp [hi']
  · refine ⟨{ n with approaches := linkedIndices neos cas i }, ?_, ?_, hdes⟩
    · unfold linkNeos
      rw [linkNeosAux_getElem neos 0 i, hm]
      simp
    · have := linkedIndicesAux_mem cas j 0 hj hi'
      simpa [linkedIndices] using this

/-- Witness for C2: one NEO and one matching approach, fully linked. -/
theorem C2_link_bidirectional_witness :
    ∃ i, lookupDes [⟨"433", some "Eros", PyFloat.nan, false, []⟩] "433" = some i ∧
      (∃ n, ([⟨"433", some "Eros", PyFloat.nan, false, []⟩] :
          List NearEarthObject)[i]? = some n ∧ n.designation = "433") ∧
      (linkCas [⟨"433", some "Eros", PyFloat.nan, false, []⟩]
          [⟨"433", ⟨1995, 1, 1, 12, 0⟩, PyFloat.nan, PyFloat.nan, none⟩])[0]? =
        some ⟨"433", ⟨1995, 1, 1, 12, 0⟩, PyFloat.nan, PyFloat.nan, some i⟩ ∧
      ∃ m, (linkNeos [⟨"433", some "Eros", PyFloat.nan, false, []⟩]
          [⟨"433", ⟨1995, 1, 1, 12, 0⟩, PyFloat.nan, PyFloat.nan, none⟩])[i]? = some m ∧
        0 ∈ m.approaches ∧ m.designation = "433" :=
  C2_link_bidirectional [⟨"433", some "Eros", PyFloat.nan, false, []⟩]
    [⟨"433", ⟨1995, 1, 1, 12, 0⟩, PyFloat.nan, PyFloat.nan, none⟩] 0
    ⟨"433", ⟨1995, 1, 1, 12, 0⟩, PyFloat.nan, PyFloat.nan, none⟩ (by decide)
    ⟨⟨"433", some "Eros", PyFloat.nan, false, []⟩, by simp, rfl⟩
end NeoProject
